import Mathlib

/-!
# Verification of `CacheEntryStatsCollector` (cache/cache_entry_stats.h)

Shallow embedding of the staleness-windowed refresh logic (`GetStats`), the
get-or-create factory (`GetShared`), and the double-checked creation protocol
of `CacheEntryStatsCollector`, together with proofs about them.

All machine arithmetic is `uint64_t`: we model it as `Nat` reduced modulo
`2 ^ 64` exactly where the C++ code wraps.
-/

set_option autoImplicit false

namespace CacheEntryStats

/-- Modulus of `uint64_t` arithmetic. -/
def u64Mod : Nat := 2 ^ 64

theorem u64Mod_eq : u64Mod = 18446744073709551616 := by norm_num [u64Mod]

theorem u64Mod_pos : 0 < u64Mod := by norm_num [u64Mod]

/-- Wrapping `uint64_t` subtraction `a - b`, operands represented as naturals
(arbitrary naturals are first reduced modulo `2 ^ 64`, as the hardware does). -/
def usub64 (a b : Nat) : Nat := (a + (u64Mod - b % u64Mod)) % u64Mod

/-- `static_cast<uint64_t>` applied to a C++ signed integer value:
conversion to an unsigned type is reduction modulo `2 ^ 64`. -/
def toU64 (i : Int) : Nat := (i % ((u64Mod : Nat) : Int)).toNat

/-- The effective staleness bound `max_age_micros` computed at the top of
`CacheEntryStatsCollector::GetStats`:

    uint64_t max_age_micros =
        static_cast<uint64_t>(std::min(maximum_age_in_seconds, 0)) * 1000000U;
    max_age_micros = std::min(
        max_age_micros,
        std::max(uint64_t{1000000},
                 100U * (last_end_time_micros_ - last_start_time_micros_)));

Multiplications and the inner subtraction are `uint64_t` operations, hence the
explicit reductions modulo `2 ^ 64`. -/
def computeMaxAgeMicros (maximum_age_in_seconds : Int)
    (last_start_time_micros last_end_time_micros : Nat) : Nat :=
  let m1 := (toU64 (min maximum_age_in_seconds 0) * 1000000) % u64Mod
  min m1 (max 1000000
    ((100 * usub64 last_end_time_micros last_start_time_micros) % u64Mod))

/-- The `Stats` template parameter of `CacheEntryStatsCollector`, modelled as
an abstract state type `σ` with the four protocol operations. `applyToAll`
stands for the whole effect of
`cache_->ApplyToAllEntries(saved_stats_.GetEntryCallback(), {})` on the stats
accumulator. -/
structure StatsModel (σ : Type) where
  beginCollection : σ → Nat → σ
  applyToAll : σ → σ
  endCollection : σ → Nat → σ
  skippedCollection : σ → σ

/-- The mutable fields of a `CacheEntryStatsCollector` that `GetStats` touches
(all accesses happen under `mutex_`, so a sequential state is faithful). -/
structure CollectorState (σ : Type) where
  saved_stats : σ
  last_start_time_micros : Nat
  last_end_time_micros : Nat
deriving DecidableEq

/-- The constructor `CacheEntryStatsCollector(cache, clock)`:
`saved_stats_()` default constructed (here: an explicit initial value `d`),
`last_start_time_micros_(0)`, `last_end_time_micros_(10000000)`. -/
def initCollector {σ : Type} (d : σ) : CollectorState σ :=
  ⟨d, 0, 10000000⟩

/-- Observable calls `GetStats` makes on the stats payload and the cache. -/
inductive CEvent where
  | beginC : Nat → CEvent
  | traverse : CEvent
  | endC : Nat → CEvent
  | skipped : CEvent
deriving DecidableEq

/-- One call of `CacheEntryStatsCollector::GetStats(stats, maximum_age_in_seconds)`.
`t_start` and `t_end` are the two `clock_->NowMicros()` readings (the second is
taken only on the scan branch).  Returns the post state, the value copied into
the caller's `*stats` slot, and the list of payload notifications in order. -/
def GetStats {σ : Type} (M : StatsModel σ) (st : CollectorState σ)
    (maximum_age_in_seconds : Int) (t_start t_end : Nat) :
    CollectorState σ × σ × List CEvent :=
  let max_age_micros := computeMaxAgeMicros maximum_age_in_seconds
    st.last_start_time_micros st.last_end_time_micros
  if usub64 t_start st.last_end_time_micros > max_age_micros then
    let s1 := M.beginCollection st.saved_stats t_start
    let s2 := M.applyToAll s1
    let s3 := M.endCollection s2 t_end
    (⟨s3, t_start, t_end⟩, s3,
      [CEvent.beginC t_start, CEvent.traverse, CEvent.endC t_end])
  else
    let s1 := M.skippedCollection st.saved_stats
    (⟨s1, st.last_start_time_micros, st.last_end_time_micros⟩, s1,
      [CEvent.skipped])

/-- A concrete protocol-conforming payload counting
(begin, end, skipped) notifications; used for concrete runs. -/
def countingModel : StatsModel (Nat × Nat × Nat) where
  beginCollection := fun s _ => (s.1 + 1, s.2.1, s.2.2)
  applyToAll := fun s => s
  endCollection := fun s _ => (s.1, s.2.1 + 1, s.2.2)
  skippedCollection := fun s => (s.1, s.2.1, s.2.2 + 1)

/-- Modelled from the spec: the effective staleness bound as §4.2 states it,
`effective_bound = min(requested_bound, max(1 second, 100 × duration_of_last_scan))`,
with `requested_bound` the caller's maximum age converted to microseconds.
Comparator for the bound the code actually computes. -/
def specEffectiveBound (requested_micros : Nat) (duration_of_last_scan : Nat) : Nat :=
  min requested_micros (max 1000000 (100 * duration_of_last_scan))

end CacheEntryStats

namespace CacheEntryStats

/-! ## Helper lemmas -/

theorem usub64_lt (a b : Nat) : usub64 a b < u64Mod :=
  Nat.mod_lt _ u64Mod_pos

theorem usub64_of_le (a b : Nat) (hb : b ≤ a) (ha : a < u64Mod) :
    usub64 a b = a - b := by
  have hbm : b % u64Mod = b := Nat.mod_eq_of_lt (lt_of_le_of_lt hb ha)
  simp only [usub64, hbm, u64Mod_eq] at *
  omega

theorem usub64_pos_of_lt (a b : Nat) (hb : b < a) (ha : a < u64Mod) :
    0 < usub64 a b := by
  rw [usub64_of_le a b (le_of_lt hb) ha]
  omega

theorem usub64_eq_zero_iff (a b : Nat) :
    usub64 a b = 0 ↔ a % u64Mod = b % u64Mod := by
  simp only [usub64, u64Mod_eq] at *
  omega

theorem computeMaxAgeMicros_nonneg_eq_zero (age : Int) (ls le : Nat)
    (hage : 0 ≤ age) : computeMaxAgeMicros age ls le = 0 := by
  have h0 : min age 0 = 0 := min_eq_right hage
  simp [computeMaxAgeMicros, toU64, h0]

theorem GetStats_scan {σ : Type} (M : StatsModel σ) (st : CollectorState σ)
    (age : Int) (t1 t2 : Nat)
    (h : usub64 t1 st.last_end_time_micros
        > computeMaxAgeMicros age st.last_start_time_micros st.last_end_time_micros) :
    GetStats M st age t1 t2 =
      (⟨M.endCollection (M.applyToAll (M.beginCollection st.saved_stats t1)) t2, t1, t2⟩,
       M.endCollection (M.applyToAll (M.beginCollection st.saved_stats t1)) t2,
       [CEvent.beginC t1, CEvent.traverse, CEvent.endC t2]) := by
  simp only [GetStats, if_pos h]

theorem GetStats_skip {σ : Type} (M : StatsModel σ) (st : CollectorState σ)
    (age : Int) (t1 t2 : Nat)
    (h : usub64 t1 st.last_end_time_micros
        ≤ computeMaxAgeMicros age st.last_start_time_micros st.last_end_time_micros) :
    GetStats M st age t1 t2 =
      (⟨M.skippedCollection st.saved_stats, st.last_start_time_micros,
          st.last_end_time_micros⟩,
       M.skippedCollection st.saved_stats, [CEvent.skipped]) := by
  simp only [GetStats, if_neg (not_lt.mpr h)]

theorem GetStats_ret_eq_saved {σ : Type} (M : StatsModel σ) (st : CollectorState σ)
    (age : Int) (t1 t2 : Nat) :
    (GetStats M st age t1 t2).2.1 = (GetStats M st age t1 t2).1.saved_stats := by
  by_cases h : usub64 t1 st.last_end_time_micros
      > computeMaxAgeMicros age st.last_start_time_micros st.last_end_time_micros
  · rw [GetStats_scan M st age t1 t2 h]
  · rw [GetStats_skip M st age t1 t2 (not_lt.mp h)]

end CacheEntryStats

namespace CacheEntryStats

/-! ## Claim C1 -/

/-- C1: the spec states the effective staleness bound equals
`min(requested_bound, max(1 second, 100 × duration_of_last_scan))` with
`requested_bound = maximum_age_in_seconds` in microseconds.  The code instead
computes `std::min(maximum_age_in_seconds, 0)` (a slip for `std::max`,
contradicting its own comment "Maximum allowed age is nominally given by the
parameter"): at the failing input `maximum_age_in_seconds = 180`,
`last_start = 0`, `last_end = 10000000`, the code's bound is `0` while the
spec's formula gives `180000000`. -/
theorem bound_formula_code_bug :
    computeMaxAgeMicros 180 0 10000000 = 0
    ∧ specEffectiveBound (180 * 1000000) (10000000 - 0) = 180000000
    ∧ computeMaxAgeMicros 180 0 10000000
        ≠ specEffectiveBound (180 * 1000000) (10000000 - 0) := by
  decide

/-! ## Claim C2 -/

/-- C2: for every non-negative `maximum_age_in_seconds`, the effective bound
`max_age_micros` computed inside `GetStats` equals exactly zero, so a fresh
scan is performed on every call whose clock reading strictly exceeds
`last_end_time_micros`. -/
theorem nonneg_age_collapses_bound_to_zero (σ : Type) (M : StatsModel σ)
    (st : CollectorState σ) (age : Int) (t_start t_end : Nat)
    (hage : 0 ≤ age) (ht : st.last_end_time_micros < t_start)
    (hlt : t_start < u64Mod) :
    computeMaxAgeMicros age st.last_start_time_micros st.last_end_time_micros = 0
    ∧ (GetStats M st age t_start t_end).2.2
        = [CEvent.beginC t_start, CEvent.traverse, CEvent.endC t_end] := by
  have hb := computeMaxAgeMicros_nonneg_eq_zero age
    st.last_start_time_micros st.last_end_time_micros hage
  refine ⟨hb, ?_⟩
  have hpos : 0 < usub64 t_start st.last_end_time_micros :=
    usub64_pos_of_lt t_start st.last_end_time_micros ht hlt
  rw [GetStats_scan M st age t_start t_end (by rw [hb]; exact hpos)]

/-- Witness for C2 at `age = 180`, `st = initCollector (0,0,0)`,
`t_start = 10000001`. -/
theorem nonneg_age_collapses_bound_to_zero_witness :
    computeMaxAgeMicros 180 0 10000000 = 0
    ∧ (GetStats countingModel (initCollector ((0, 0, 0) : Nat × Nat × Nat))
          180 10000001 10000005).2.2
        = [CEvent.beginC 10000001, CEvent.traverse, CEvent.endC 10000005] :=
  nonneg_age_collapses_bound_to_zero (Nat × Nat × Nat) countingModel
    (initCollector (0, 0, 0)) 180 10000001 10000005 (by norm_num)
    (by norm_num [initCollector]) (by norm_num [u64Mod])

end CacheEntryStats

namespace CacheEntryStats

/-! ## Claim C3 -/

/-- C3 counterexample: the claim says the first-ever `GetStats` call on a
fresh collector takes the scan branch for *every* clock value; but at clock
reading exactly `10000000` (the pessimistic seed of `last_end_time_micros_`)
the elapsed time is `0`, which is not `> max_age_micros`, so the call takes
the skip branch: `SkippedCollection` fires and no scan happens. -/
theorem first_call_at_seed_clock_skips :
    (GetStats countingModel (initCollector ((0, 0, 0) : Nat × Nat × Nat))
        180 10000000 10000000).2.2 = [CEvent.skipped]
    ∧ (GetStats countingModel (initCollector ((0, 0, 0) : Nat × Nat × Nat))
        180 10000000 10000000).1.saved_stats = (0, 0, 1) := by
  decide

/-- C3 amended: for every non-negative `maximum_age_in_seconds` and every
clock value whose `uint64_t` reading differs from the seed `10000000`, the
first-ever `GetStats` call on a freshly constructed collector takes the scan
branch: `BeginCollection` and `EndCollection` fire exactly once each and
`SkippedCollection` never. -/
theorem first_call_scans_off_seed (σ : Type) (M : StatsModel σ) (d : σ)
    (age : Int) (t_start t_end : Nat) (hage : 0 ≤ age)
    (ht : t_start % u64Mod ≠ 10000000) :
    (GetStats M (initCollector d) age t_start t_end).2.2
      = [CEvent.beginC t_start, CEvent.traverse, CEvent.endC t_end] := by
  have hb := computeMaxAgeMicros_nonneg_eq_zero age 0 10000000 hage
  have hz : usub64 t_start 10000000 ≠ 0 := by
    rw [Ne, usub64_eq_zero_iff]
    have : (10000000 : Nat) % u64Mod = 10000000 :=
      Nat.mod_eq_of_lt (by norm_num [u64Mod])
    rw [this]
    exact ht
  have hpos : 0 < usub64 t_start 10000000 := Nat.pos_of_ne_zero hz
  rw [GetStats_scan M (initCollector d) age t_start t_end ?_]
  show usub64 t_start (initCollector d).last_end_time_micros
      > computeMaxAgeMicros age (initCollector d).last_start_time_micros
          (initCollector d).last_end_time_micros
  simp only [initCollector]
  rw [hb]
  exact hpos

/-- Witness for C3 (amended) at `age = 0`, `t_start = 0`. -/
theorem first_call_scans_off_seed_witness :
    (GetStats countingModel (initCollector ((0, 0, 0) : Nat × Nat × Nat))
        0 0 3).2.2 = [CEvent.beginC 0, CEvent.traverse, CEvent.endC 3] :=
  first_call_scans_off_seed (Nat × Nat × Nat) countingModel (0, 0, 0)
    0 0 3 (by norm_num) (by norm_num [u64Mod])

/-! ## Claim C4 -/

/-- C4: the spec scenario says that with bound 180 seconds, after a scan
completing at `t = 0` a second call at `t = 1` (second, i.e. 1000000 µs)
skips; because the code's `std::min(maximum_age_in_seconds, 0)` slip
collapses the effective bound to `0`, the second call in fact takes the scan
branch (`BeginCollection`/`EndCollection` fire again, `SkippedCollection`
does not).  The second half of the scenario (a second call at `t = 200`
rescans) does hold, as the last conjunct shows. -/
theorem second_call_within_window_rescans_bug :
    (GetStats countingModel
        ((GetStats countingModel (initCollector ((0, 0, 0) : Nat × Nat × Nat))
            180 0 0).1) 180 1000000 1000000).2.2
      = [CEvent.beginC 1000000, CEvent.traverse, CEvent.endC 1000000]
    ∧ (GetStats countingModel
        ((GetStats countingModel (initCollector ((0, 0, 0) : Nat × Nat × Nat))
            180 0 0).1) 180 1000000 1000000).2.2 ≠ [CEvent.skipped]
    ∧ (GetStats countingModel
        ((GetStats countingModel (initCollector ((0, 0, 0) : Nat × Nat × Nat))
            180 0 0).1) 180 200000000 200000000).2.2
      = [CEvent.beginC 200000000, CEvent.traverse, CEvent.endC 200000000] := by
  decide

end CacheEntryStats

namespace CacheEntryStats

/-! ## Claim C5 -/

/-- C5 counterexample: the claim says a skip-branch call copies out a value
identical to the snapshot returned by the previous call.  But the code calls
`saved_stats_.SkippedCollection()` *before* copying out, and the protocol
allows `SkippedCollection` to change the payload value (e.g. counting skips,
as `countingModel` does): the previous call returned `(1, 1, 0)` while the
skip-branch call copies out `(1, 1, 1)`. -/
theorem skip_branch_copy_differs_counterexample :
    (GetStats countingModel
        ((GetStats countingModel (initCollector ((0, 0, 0) : Nat × Nat × Nat))
            180 0 0).1) 180 0 0).2.2 = [CEvent.skipped]
    ∧ (GetStats countingModel (initCollector ((0, 0, 0) : Nat × Nat × Nat))
          180 0 0).2.1 = (1, 1, 0)
    ∧ (GetStats countingModel
        ((GetStats countingModel (initCollector ((0, 0, 0) : Nat × Nat × Nat))
            180 0 0).1) 180 0 0).2.1 = (1, 1, 1)
    ∧ (GetStats countingModel
        ((GetStats countingModel (initCollector ((0, 0, 0) : Nat × Nat × Nat))
            180 0 0).1) 180 0 0).2.1
      ≠ (GetStats countingModel (initCollector ((0, 0, 0) : Nat × Nat × Nat))
          180 0 0).2.1 := by
  decide

/-- C5 amended: on every skip-branch `GetStats` call, `SkippedCollection` is
invoked exactly once, `BeginCollection`, `EndCollection` and the traversal
are not invoked, and the value copied to the caller equals
`SkippedCollection` applied to the snapshot returned by the previous call;
in particular it is value-identical to the previous snapshot whenever the
payload's `SkippedCollection` leaves the value unchanged. -/
theorem skip_branch_returns_previous_snapshot (σ : Type) (M : StatsModel σ)
    (pst : CollectorState σ) (page : Int) (p1 p2 : Nat)
    (age : Int) (t_start t_end : Nat)
    (hskip : usub64 t_start (GetStats M pst page p1 p2).1.last_end_time_micros
        ≤ computeMaxAgeMicros age
            (GetStats M pst page p1 p2).1.last_start_time_micros
            (GetStats M pst page p1 p2).1.last_end_time_micros) :
    (GetStats M (GetStats M pst page p1 p2).1 age t_start t_end).2.2
        = [CEvent.skipped]
    ∧ (GetStats M (GetStats M pst page p1 p2).1 age t_start t_end).2.1
        = M.skippedCollection ((GetStats M pst page p1 p2).2.1)
    ∧ ((∀ s, M.skippedCollection s = s) →
        (GetStats M (GetStats M pst page p1 p2).1 age t_start t_end).2.1
          = (GetStats M pst page p1 p2).2.1) := by
  have hs := GetStats_skip M (GetStats M pst page p1 p2).1 age t_start t_end hskip
  have hr := GetStats_ret_eq_saved M pst page p1 p2
  refine ⟨by rw [hs], ?_, ?_⟩
  · rw [hs, hr]
  · intro hid
    rw [hs]
    show M.skippedCollection (GetStats M pst page p1 p2).1.saved_stats
        = (GetStats M pst page p1 p2).2.1
    rw [hid, hr]

/-- Witness for C5 (amended): a skip-branch call after a first scan, with a
payload whose `SkippedCollection` is the identity. -/
theorem skip_branch_returns_previous_snapshot_witness :
    (GetStats (StatsModel.mk (fun s _ => s) id (fun s _ => s) id)
        ((GetStats (StatsModel.mk (fun s _ => s) id (fun s _ => s) id)
            (initCollector (0 : Nat)) 180 0 0).1) 180 0 0).2.2
      = [CEvent.skipped]
    ∧ (GetStats (StatsModel.mk (fun s _ => s) id (fun s _ => s) id)
        ((GetStats (StatsModel.mk (fun s _ => s) id (fun s _ => s) id)
            (initCollector (0 : Nat)) 180 0 0).1) 180 0 0).2.1
      = (StatsModel.mk (fun s _ => s) id (fun s _ => s)
          (id : Nat → Nat)).skippedCollection
          ((GetStats (StatsModel.mk (fun s _ => s) id (fun s _ => s) id)
              (initCollector (0 : Nat)) 180 0 0).2.1) :=
  ⟨(skip_branch_returns_previous_snapshot Nat
      (StatsModel.mk (fun s _ => s) id (fun s _ => s) id)
      (initCollector 0) 180 0 0 180 0 0 (by decide)).1,
   (skip_branch_returns_previous_snapshot Nat
      (StatsModel.mk (fun s _ => s) id (fun s _ => s) id)
      (initCollector 0) 180 0 0 180 0 0 (by decide)).2.1⟩

/-! ## Claim C6 -/

/-- The quiescent-state invariant of the spec:
`last_end_time_micros >= last_start_time_micros`. -/
def QuiescentInv {σ : Type} (st : CollectorState σ) : Prop :=
  st.last_start_time_micros ≤ st.last_end_time_micros

/-- C6: a freshly constructed collector satisfies
`last_end_time_micros >= last_start_time_micros`, and assuming the clock is
monotonically non-decreasing (the second `NowMicros` reading is at least the
first), `GetStats` preserves the invariant on both branches. -/
theorem quiescent_invariant :
    (∀ (σ : Type) (d : σ), QuiescentInv (initCollector d))
    ∧ (∀ (σ : Type) (M : StatsModel σ) (st : CollectorState σ) (age : Int)
        (t_start t_end : Nat), QuiescentInv st → t_start ≤ t_end →
        QuiescentInv (GetStats M st age t_start t_end).1) := by
  constructor
  · intro σ d
    show (0 : Nat) ≤ 10000000
    norm_num
  · intro σ M st age t_start t_end hinv hmono
    by_cases h : usub64 t_start st.last_end_time_micros
        > computeMaxAgeMicros age st.last_start_time_micros st.last_end_time_micros
    · rw [GetStats_scan M st age t_start t_end h]
      exact hmono
    · rw [GetStats_skip M st age t_start t_end (not_lt.mp h)]
      exact hinv

/-- Witness for C6: the invariant after a concrete scan-branch call. -/
theorem quiescent_invariant_witness :
    QuiescentInv ((GetStats countingModel
        (initCollector ((0, 0, 0) : Nat × Nat × Nat)) 180 20000000 20000007).1) :=
  quiescent_invariant.2 (Nat × Nat × Nat) countingModel
    (initCollector (0, 0, 0)) 180 20000000 20000007
    (quiescent_invariant.1 (Nat × Nat × Nat) (0, 0, 0)) (by norm_num)

end CacheEntryStats

namespace CacheEntryStats

/-! ## GetShared: sequential embedding -/

/-- Identity of a cache entry's cleanup callback.  `collectorDeleter` stands
for `CacheEntryStatsCollector::Deleter`; `foreignDeleter n` for the deleter
of any unrelated cached datum. -/
inductive DeleterTag where
  | collectorDeleter : DeleterTag
  | foreignDeleter : Nat → DeleterTag
deriving DecidableEq

/-- A cache entry under the collector's fixed key: the stored value
(a collector instance, identified by a number) and its cleanup callback. -/
structure KeyEntry where
  value : Nat
  deleter : DeleterTag
deriving DecidableEq

/-- `rocksdb::Status` as far as `GetShared` distinguishes it. -/
inductive CStatus where
  | ok : CStatus
  | err : Nat → CStatus
deriving DecidableEq

/-- The part of the `Cache` that `GetShared` interacts with: the content
under the collector's fixed `cache_key` (`Lookup` result), and the status
`Insert` would return if called (chosen by the cache environment). -/
structure KeyCache where
  entry : Option KeyEntry
  insertStatus : CStatus
deriving DecidableEq

/-- Result of one `GetShared` call: the returned `Status`, the caller's
output slot `*ptr` (the guard, holding the referenced collector instance;
`GetShared` writes it only on success, otherwise it keeps its input value),
the cache content afterwards, and whether the
`assert(cache->GetDeleter(h) == Deleter)` check held when reached
(`true` when the early-return path skips it). -/
structure GetSharedResult where
  status : CStatus
  ptr : Option Nat
  cache : KeyCache
  assertOk : Bool
deriving DecidableEq

/-- One sequential call of `CacheEntryStatsCollector::GetShared(cache, clock,
ptr)`.  In a single-threaded execution the re-check lookup under
`static_mutex` reads the same cache state as the first lookup, so the two
lookups are one `match`; the racing interleavings are modelled separately by
`gsStep`/`gsRun` below.  A fresh collector instance is value `0`; `Insert`
stores it with cleanup callback `Deleter` and, per the code's
`assert(h == nullptr)`, yields no handle on failure. -/
def GetShared (c : KeyCache) (ptr_in : Option Nat) : GetSharedResult :=
  match c.entry with
  | some e =>
      ⟨CStatus.ok, some e.value, c,
        decide (e.deleter = DeleterTag.collectorDeleter)⟩
  | none =>
      match c.insertStatus with
      | CStatus.ok =>
          let e : KeyEntry := ⟨0, DeleterTag.collectorDeleter⟩
          ⟨CStatus.ok, some e.value, ⟨some e, c.insertStatus⟩, true⟩
      | CStatus.err n => ⟨CStatus.err n, ptr_in, c, true⟩

/-! ## Claim C7 -/

/-- C7: when no entry is found and the cache's `Insert` returns a non-OK
status, `GetShared` returns exactly that status and leaves the caller's
output slot unchanged (the guard is assigned only after a successful lookup
or insert). -/
theorem insert_failure_propagates (c : KeyCache) (ptr_in : Option Nat) (n : Nat)
    (hmiss : c.entry = none) (hfail : c.insertStatus = CStatus.err n) :
    (GetShared c ptr_in).status = CStatus.err n
    ∧ (GetShared c ptr_in).ptr = ptr_in := by
  simp [GetShared, hmiss, hfail]

/-- Witness for C7: a concrete empty cache whose insert fails with code 3. -/
theorem insert_failure_propagates_witness :
    (GetShared ⟨none, CStatus.err 3⟩ (some 7)).status = CStatus.err 3
    ∧ (GetShared ⟨none, CStatus.err 3⟩ (some 7)).ptr = some 7 :=
  insert_failure_propagates ⟨none, CStatus.err 3⟩ (some 7) 3 rfl rfl

/-! ## Claim C8 -/

/-- C8: under the precondition that the collector's fixed key holds no
unrelated entry (any present entry has cleanup callback `Deleter`), the
`assert(cache->GetDeleter(h) == Deleter)` in `GetShared` holds, and every
entry the returned guard can reference has cleanup callback `Deleter`. -/
theorem deleter_assertion_valid (c : KeyCache) (ptr_in : Option Nat)
    (hpre : ∀ e, c.entry = some e → e.deleter = DeleterTag.collectorDeleter) :
    (GetShared c ptr_in).assertOk = true
    ∧ (∀ e, (GetShared c ptr_in).cache.entry = some e →
        e.deleter = DeleterTag.collectorDeleter) := by
  match hc : c.entry with
  | some e =>
      have hd := hpre e hc
      constructor
      · simp [GetShared, hc, hd]
      · intro e' he'
        simp only [GetShared, hc] at he'
        exact (Option.some.inj he') ▸ hd
  | none =>
      match hs : c.insertStatus with
      | CStatus.ok =>
          constructor
          · simp [GetShared, hc, hs]
          · intro e' he'
            simp only [GetShared, hc, hs] at he'
            exact (Option.some.inj he') ▸ rfl
      | CStatus.err n =>
          constructor
          · simp [GetShared, hc, hs]
          · intro e' he'
            simp only [GetShared, hc, hs] at he'
            exact Option.noConfusion he'

/-- Witness for C8: a cache already holding the collector entry. -/
theorem deleter_assertion_valid_witness :
    (GetShared ⟨some ⟨5, DeleterTag.collectorDeleter⟩, CStatus.ok⟩ none).assertOk
      = true
    ∧ (∀ e, (GetShared ⟨some ⟨5, DeleterTag.collectorDeleter⟩,
          CStatus.ok⟩ none).cache.entry = some e →
        e.deleter = DeleterTag.collectorDeleter) :=
  deleter_assertion_valid ⟨some ⟨5, DeleterTag.collectorDeleter⟩, CStatus.ok⟩
    none (by intro e he; cases he; rfl)

end CacheEntryStats

namespace CacheEntryStats

/-! ## GetShared: double-checked creation protocol -/

/-- Shared state of the creation protocol for one (cache, Stats-kind) pair:
the entry currently stored under the collector's key, the number of collector
instances constructed so far (instances are numbered from 1 in construction
order), and the instances ever stored under the key (what any past `Lookup`
can have returned). -/
structure GSState where
  entry : Option Nat
  constructed : Nat
  seen : List Nat
deriving DecidableEq

/-- First use: nothing stored, nothing constructed. -/
def gsInit : GSState := ⟨none, 0, []⟩

/-- One thread's `GetShared`, processed at its serialization point.  `obs` is
what the thread's pre-lock `Lookup` observed, possibly at an arbitrarily
earlier moment: `some i` takes the fast path straight to the guard; `none`
(which may be stale) enters the `static_mutex` critical section, re-checks
the *current* entry (`Lookup` again under the lock) and constructs and
inserts a new collector only if the key is still absent.  The step rejects
(`none`) an observation `some i` of an instance never stored under the key,
which no real `Lookup` can produce; checking membership against the current
`seen` is sound because `seen` only grows.  `Insert` is assumed to succeed
(claim C7 covers the failure path). -/
def gsStep (s : GSState) (obs : Option Nat) : Option (GSState × Nat) :=
  match obs with
  | some i => if i ∈ s.seen then some (s, i) else none
  | none =>
      match s.entry with
      | some i => some (s, i)
      | none =>
          let i := s.constructed + 1
          some (⟨some i, i, i :: s.seen⟩, i)

/-- A whole first-use race: the threads' calls in serialization order, each
with its (possibly stale) pre-lock observation.  Returns the final shared
state and the instance each returned guard references. -/
def gsRun (s : GSState) (l : List (Option Nat)) : Option (GSState × List Nat) :=
  match l with
  | [] => some (s, [])
  | obs :: rest =>
      (gsStep s obs).bind fun si =>
        (gsRun si.1 rest).map fun r => (r.1, si.2 :: r.2)

/-- Reachable protocol states: either nothing has ever been stored, or the
single instance `1` was constructed and stored. -/
def GSInv (s : GSState) : Prop :=
  (s.entry = none ∧ s.constructed = 0 ∧ s.seen = [])
  ∨ (s.entry = some 1 ∧ s.constructed = 1 ∧ s.seen = [1])

theorem gsStep_inv (s : GSState) (obs : Option Nat) (s' : GSState) (i : Nat)
    (hinv : GSInv s) (hstep : gsStep s obs = some (s', i)) :
    GSInv s' ∧ i = 1 := by
  match obs with
  | some j =>
      simp only [gsStep] at hstep
      by_cases hj : j ∈ s.seen
      · rw [if_pos hj] at hstep
        simp only [Option.some.injEq, Prod.mk.injEq] at hstep
        obtain ⟨h1, h2⟩ := hstep
        subst h1
        subst h2
        cases hinv with
        | inl h => rw [h.2.2] at hj; exact absurd hj (List.not_mem_nil j)
        | inr h =>
            rw [h.2.2] at hj
            exact ⟨Or.inr h, List.mem_singleton.mp hj⟩
      · rw [if_neg hj] at hstep
        exact Option.noConfusion hstep
  | none =>
      cases hinv with
      | inl h =>
          obtain ⟨he, hc, hs2⟩ := h
          simp only [gsStep, he, hc, hs2, Option.some.injEq, Prod.mk.injEq] at hstep
          obtain ⟨h1, h2⟩ := hstep
          subst h1
          constructor
          · exact Or.inr ⟨rfl, rfl, rfl⟩
          · omega
      | inr h =>
          simp only [gsStep, h.1, Option.some.injEq, Prod.mk.injEq] at hstep
          obtain ⟨h1, h2⟩ := hstep
          subst h1
          exact ⟨Or.inr h, h2.symm⟩

theorem gsRun_inv (l : List (Option Nat)) (s : GSState) (s' : GSState)
    (ids : List Nat) (hinv : GSInv s) (hrun : gsRun s l = some (s', ids)) :
    GSInv s' ∧ ∀ i ∈ ids, i = 1 := by
  induction l generalizing s ids with
  | nil =>
      simp only [gsRun, Option.some.injEq, Prod.mk.injEq] at hrun
      obtain ⟨h1, h2⟩ := hrun
      subst h1; subst h2
      exact ⟨hinv, by intro i hi; exact absurd hi (List.not_mem_nil i)⟩
  | cons obs rest ih =>
      simp only [gsRun] at hrun
      match hstep : gsStep s obs with
      | none => rw [hstep, Option.none_bind] at hrun; exact Option.noConfusion hrun
      | some (s1, i) =>
          rw [hstep, Option.some_bind] at hrun
          match hrest : gsRun s1 rest with
          | none =>
              rw [hrest, Option.map_none'] at hrun
              exact Option.noConfusion hrun
          | some (s2, ids2) =>
              rw [hrest, Option.map_some'] at hrun
              simp only [Option.some.injEq, Prod.mk.injEq] at hrun
              obtain ⟨h1, h2⟩ := hrun
              subst h1; subst h2
              obtain ⟨hinv1, hi1⟩ := gsStep_inv s obs s1 i hinv hstep
              obtain ⟨hinv2, hall⟩ := ih s1 ids2 hinv1 hrest
              refine ⟨hinv2, ?_⟩
              intro j hj
              cases List.mem_cons.mp hj with
              | inl h => exact h ▸ hi1
              | inr h => exact hall j h

end CacheEntryStats

namespace CacheEntryStats

/-! ## Claim C9 -/

/-- C9: in every first-use race — any number of `GetShared` calls, in any
serialization order, each with a possibly stale pre-lock lookup observation —
at most one collector instance is ever constructed, and every call's returned
guard references that same single instance (instance `1`). -/
theorem single_collector_under_race (l : List (Option Nat)) (s' : GSState)
    (ids : List Nat) (hrun : gsRun gsInit l = some (s', ids)) :
    s'.constructed ≤ 1 ∧ ∀ i ∈ ids, i = 1 := by
  have hinv0 : GSInv gsInit := Or.inl ⟨rfl, rfl, rfl⟩
  obtain ⟨hinv, hall⟩ := gsRun_inv l gsInit s' ids hinv0 hrun
  refine ⟨?_, hall⟩
  cases hinv with
  | inl h => rw [h.2.1]; omega
  | inr h => rw [h.2.1]

/-- Witness for C9: three racing calls — two that staleley observed "absent"
(the second reaches the re-check and finds the entry) and one fast-path hit. -/
theorem single_collector_under_race_witness :
    gsRun gsInit [none, none, some 1]
      = some (⟨some 1, 1, [1]⟩, [1, 1, 1])
    ∧ (⟨some 1, 1, [1]⟩ : GSState).constructed ≤ 1
    ∧ ∀ i ∈ [1, 1, 1], i = 1 := by
  have h : gsRun gsInit [none, none, some 1]
      = some (⟨some 1, 1, [1]⟩, [1, 1, 1]) := by decide
  exact ⟨h, single_collector_under_race [none, none, some 1] ⟨some 1, 1, [1]⟩
    [1, 1, 1] h⟩

/-! ## Claim C10 -/

/-- C10: for the out-of-contract input `maximum_age_in_seconds = -1`,
`std::min(-1, 0) = -1` converts to `2^64 - 1` and the multiplication by
`1000000` wraps to `2^64 - 1000000`; provided the scan-duration cap
`max(1000000, 100 × last-scan-duration)` lies below that wrapped value, the
effective bound equals that cap — strictly larger than the zero bound every
non-negative age yields — and a call whose elapsed time is within the bound
takes the skip branch. -/
theorem negative_age_wraps_to_large_bound (ls le : Nat)
    (hcap : max 1000000 ((100 * usub64 le ls) % u64Mod) < u64Mod - 1000000) :
    (toU64 (min (-1 : Int) 0) * 1000000) % u64Mod = u64Mod - 1000000
    ∧ computeMaxAgeMicros (-1) ls le
        = max 1000000 ((100 * usub64 le ls) % u64Mod)
    ∧ (∀ age : Int, 0 ≤ age →
        computeMaxAgeMicros age ls le < computeMaxAgeMicros (-1) ls le
        ∧ computeMaxAgeMicros age ls le = 0)
    ∧ (∀ (σ : Type) (M : StatsModel σ) (d : σ) (t_start t_end : Nat),
        usub64 t_start le ≤ computeMaxAgeMicros (-1) ls le →
        (GetStats M ⟨d, ls, le⟩ (-1) t_start t_end).2.2 = [CEvent.skipped]) := by
  have hm1 : (toU64 (min (-1 : Int) 0) * 1000000) % u64Mod = u64Mod - 1000000 := by
    decide
  have hbound : computeMaxAgeMicros (-1) ls le
      = max 1000000 ((100 * usub64 le ls) % u64Mod) := by
    simp only [computeMaxAgeMicros]
    rw [hm1]
    exact min_eq_right (le_of_lt hcap)
  refine ⟨hm1, hbound, ?_, ?_⟩
  · intro age hage
    have hz := computeMaxAgeMicros_nonneg_eq_zero age ls le hage
    refine ⟨?_, hz⟩
    rw [hz, hbound]
    have : (1000000 : Nat) ≤ max 1000000 ((100 * usub64 le ls) % u64Mod) :=
      le_max_left _ _
    omega
  · intro σ M d t_start t_end hskip
    rw [GetStats_skip M ⟨d, ls, le⟩ (-1) t_start t_end hskip]

/-- Witness for C10 at `ls = 0`, `le = 0` (cap `= 1000000`), with a call at
elapsed time `1 ≤ 1000000`. -/
theorem negative_age_wraps_to_large_bound_witness :
    computeMaxAgeMicros (-1) 0 0 = max 1000000 ((100 * usub64 0 0) % u64Mod)
    ∧ (GetStats countingModel
        (⟨(0, 0, 0), 0, 0⟩ : CollectorState (Nat × Nat × Nat)) (-1) 1 1).2.2
      = [CEvent.skipped] :=
  ⟨(negative_age_wraps_to_large_bound 0 0 (by decide)).2.1,
   (negative_age_wraps_to_large_bound 0 0 (by decide)).2.2.2
     (Nat × Nat × Nat) countingModel (0, 0, 0) 1 1 (by decide)⟩

end CacheEntryStats
